import Mathlib

/-!
Verification development for the Alif language server (`als`) core.

Each section shallowly embeds one subsystem of the C++ source:

* `ALS.Analysis` — the lexer (`src/als/src/analysis/Lexer.cpp`, `Token.cpp`).
  Source text is modelled as a list of Unicode code points (`char32_t`
  values, `Nat` here); the C++ lexer decodes UTF-8 to `char32_t` before
  every classification decision, so the code-point level is the faithful
  abstraction.  Token position ranges are not needed by any theorem and
  are omitted from the token projection.
* `ALS.Features` — the Arabic completion provider
  (`src/als/src/features/CompletionProvider.cpp`, `ArabicCompletionItem.cpp`,
  `ArabicCompletionDatabase.cpp`).
* `ALS.Core` — the thread pool (`ThreadPool.h/.cpp`), the JSON-RPC
  protocol (`JsonRpcProtocol.cpp`), the request dispatcher
  (`RequestDispatcher.cpp`) and the server read loop (`LspServer.cpp`).
-/

namespace ALS
namespace Analysis

/-- Code points of a Lean string literal (UTF-8 decoding of the C++ string
constant); a code point (`Nat`) is the counterpart of C++ `char32_t`. -/
def codes (s : String) : List Nat := s.data.map Char.toNat

/-- Lexer.cpp `isDigit`: `ch >= '0' && ch <= '9'`. -/
def isDigitCode (c : Nat) : Bool := 48 ≤ c && c ≤ 57

/-- Token.cpp `isArabicLetter`: the five Arabic Unicode block ranges. -/
def isArabicLetterCode (c : Nat) : Bool :=
  (0x0600 ≤ c && c ≤ 0x06FF) || (0x0750 ≤ c && c ≤ 0x077F) ||
  (0x08A0 ≤ c && c ≤ 0x08FF) || (0xFB50 ≤ c && c ≤ 0xFDFF) ||
  (0xFE70 ≤ c && c ≤ 0xFEFF)

/-- Token.cpp `isIdentifierStart`: ASCII letters, underscore, Arabic letters. -/
def isIdentStartCode (c : Nat) : Bool :=
  (97 ≤ c && c ≤ 122) || (65 ≤ c && c ≤ 90) || c == 95 || isArabicLetterCode c

/-- Token.cpp `isIdentifierContinue`: start characters, ASCII digits and
Arabic-Indic digits U+0660–U+0669. -/
def isIdentContinueCode (c : Nat) : Bool :=
  isIdentStartCode c || (48 ≤ c && c ≤ 57) || (0x0660 ≤ c && c ≤ 0x0669)

/-- Lexer.cpp `skipWhitespace` character set: space, tab, CR, LF. -/
def isWhitespaceCode (c : Nat) : Bool := c == 32 || c == 9 || c == 13 || c == 10

/-- Lexer.cpp `isOperatorChar`. -/
def isOperatorCharCode (c : Nat) : Bool :=
  c == 43 || c == 45 || c == 42 || c == 47 || c == 92 || c == 61 || c == 60 ||
  c == 62 || c == 33 || c == 38 || c == 124 || c == 37 || c == 94 || c == 126

/-- Lexer.cpp `isPunctuationChar`. -/
def isPunctCharCode (c : Nat) : Bool :=
  c == 40 || c == 41 || c == 91 || c == 93 || c == 123 || c == 125 ||
  c == 44 || c == 59 || c == 58 || c == 46

/-- Token.h `TokenType`. -/
inductive TokenType where
  | Keyword | Keyword1 | Keyword2 | Identifier
  | Number | String
  | Comment | Whitespace
  | Operator | Punctuation
  | EndOfFile | Invalid
  | FStringStart | FStringMiddle | FStringEnd
deriving DecidableEq, Repr

/-- Projection of Token.h `Token` to type and text; the position `range` is
read by no modelled function and is omitted. -/
structure Token where
  type : TokenType
  text : List Nat
deriving DecidableEq, Repr

/-- Lexer.cpp `Lexer::keywords_` (the 38 Arabic keywords). -/
def lexKeywords : List (List Nat) :=
  (["ك", "و", "في", "او", "أو", "من", "مع", "صح", "هل",
    "اذا", "إذا", "ليس", "مرر", "عدم", "ولد", "صنف", "خطا", "خطأ", "عام",
    "احذف", "دالة", "لاجل", "لأجل", "والا", "وإلا", "توقف", "نطاق", "ارجع",
    "اواذا", "أوإذا", "بينما", "انتظر", "استمر", "مزامنة", "استورد",
    "حاول", "خلل", "نهاية"] : List String).map codes

/-- Lexer.cpp `Lexer::keywords1_` (built-in functions). -/
def lexKeywords1 : List (List Nat) :=
  (["اطبع", "ادخل", "مدى"] : List String).map codes

/-- Lexer.cpp `Lexer::keywords2_` (special identifiers). -/
def lexKeywords2 : List (List Nat) :=
  (["_تهيئة_", "هذا", "اصل"] : List String).map codes

/-- Lexer.cpp `classifyIdentifier`: keyword sets checked in order, otherwise
`Identifier`. -/
def classifyIdentifier (t : List Nat) : TokenType :=
  if lexKeywords.contains t then TokenType.Keyword
  else if lexKeywords1.contains t then TokenType.Keyword1
  else if lexKeywords2.contains t then TokenType.Keyword2
  else TokenType.Identifier

/-- Number-token character set in Lexer.cpp `tokenizeNumber`: digits and
the decimal point. -/
def isNumChar (c : Nat) : Bool := isDigitCode c || c == 46

/-- Two-character operators recognized by Lexer.cpp `tokenizeOperator`. -/
def isTwoCharOp (c d : Nat) : Bool :=
  (c == 61 && d == 61) || (c == 33 && d == 61) ||
  (c == 60 && d == 61) || (c == 62 && d == 61)

/-- String-body scan of Lexer.cpp `tokenizeString` after the opening quote:
a backslash copies itself and the next character verbatim; the matching
unescaped quote terminates.  Returns the consumed text (including the
closing quote when found) and the remaining input.  The f-string bookkeeping
(`isFString_`, `quoteCount_`) mutates state that the source never reads when
choosing token type or text, so it does not appear here. -/
def stringRest (quote : Nat) : List Nat → List Nat × List Nat
  | [] => ([], [])
  | [c] => ([c], [])
  | c :: d :: rest =>
    if c == 92 then
      let p := stringRest quote rest
      (c :: d :: p.1, p.2)
    else if c == quote then ([c], d :: rest)
    else
      let p := stringRest quote (d :: rest)
      (c :: p.1, p.2)

/-- Lexer.cpp `nextToken`: skip whitespace, then dispatch on the first
remaining character exactly as the source does. -/
def nextToken (s : List Nat) : Token × List Nat :=
  match s.dropWhile isWhitespaceCode with
  | [] => ({ type := TokenType.EndOfFile, text := [] }, [])
  | c :: rest =>
    if isDigitCode c then
      ({ type := TokenType.Number, text := (c :: rest).takeWhile isNumChar },
        (c :: rest).dropWhile isNumChar)
    else if isIdentStartCode c then
      let t := (c :: rest).takeWhile isIdentContinueCode
      ({ type := classifyIdentifier t, text := t },
        (c :: rest).dropWhile isIdentContinueCode)
    else if c == 34 || c == 39 then
      let p := stringRest c rest
      ({ type := TokenType.String, text := c :: p.1 }, p.2)
    else if c == 35 then
      ({ type := TokenType.Comment, text := (c :: rest).takeWhile (fun d => !(d == 10)) },
        (c :: rest).dropWhile (fun d => !(d == 10)))
    else if isOperatorCharCode c then
      match rest with
      | d :: rest2 =>
        if isTwoCharOp c d then ({ type := TokenType.Operator, text := [c, d] }, rest2)
        else ({ type := TokenType.Operator, text := [c] }, rest)
      | [] => ({ type := TokenType.Operator, text := [c] }, [])
    else if isPunctCharCode c then
      ({ type := TokenType.Punctuation, text := [c] }, rest)
    else
      ({ type := TokenType.Invalid, text := [c] }, rest)

/-- Lexer.cpp `tokenize` loop: collect tokens, drop `Invalid` ones, stop at
`EndOfFile` (appending it, as the post-loop code does).  `nextToken` consumes
at least one code point whenever it does not return `EndOfFile`, so fuel
`length + 1` never runs out. -/
def lexGo : Nat → List Nat → List Token
  | 0, _ => []
  | fuel + 1, s =>
    let t := (nextToken s).1
    if t.type = TokenType.EndOfFile then [t]
    else if t.type = TokenType.Invalid then lexGo fuel (nextToken s).2
    else t :: lexGo fuel (nextToken s).2

/-- Lexer.cpp `tokenize`. -/
def tokenize (s : List Nat) : List Token := lexGo (s.length + 1) s

/-- EndOfFile token produced at the end of every tokenization. -/
def eofToken : Token := { type := TokenType.EndOfFile, text := [] }

theorem takeWhile_all {p : Nat → Bool} :
    ∀ (l : List Nat), (∀ c ∈ l, p c = true) → l.takeWhile p = l := by
  intro l
  induction l with
  | nil => intro _; rfl
  | cons c cs ih =>
    intro h
    have hc : p c = true := h c (List.mem_cons_self c cs)
    simp only [List.takeWhile_cons, hc, if_true]
    rw [ih (fun d hd => h d (List.mem_cons_of_mem c hd))]

theorem dropWhile_all {p : Nat → Bool} :
    ∀ (l : List Nat), (∀ c ∈ l, p c = true) → l.dropWhile p = [] := by
  intro l
  induction l with
  | nil => intro _; rfl
  | cons c cs ih =>
    intro h
    have hc : p c = true := h c (List.mem_cons_self c cs)
    simp only [List.dropWhile_cons, hc, if_true]
    exact ih (fun d hd => h d (List.mem_cons_of_mem c hd))

theorem identStart_not_ws {c : Nat} (h : isIdentStartCode c = true) :
    isWhitespaceCode c = false := by
  simp [isIdentStartCode, isArabicLetterCode] at h
  simp [isWhitespaceCode]
  omega

theorem identStart_not_digit {c : Nat} (h : isIdentStartCode c = true) :
    isDigitCode c = false := by
  simp [isIdentStartCode, isArabicLetterCode] at h
  simp [isDigitCode]
  omega

theorem nextToken_identRun {c : Nat} {cs : List Nat}
    (hstart : isIdentStartCode c = true)
    (hall : ∀ d ∈ c :: cs, isIdentContinueCode d = true) :
    nextToken (c :: cs) =
      ({ type := classifyIdentifier (c :: cs), text := c :: cs }, []) := by
  have hws : isWhitespaceCode c = false := identStart_not_ws hstart
  have hdig : isDigitCode c = false := identStart_not_digit hstart
  have htake : (c :: cs).takeWhile isIdentContinueCode = c :: cs :=
    takeWhile_all _ hall
  have hdrop : (c :: cs).dropWhile isIdentContinueCode = [] :=
    dropWhile_all _ hall
  unfold nextToken
  rw [List.dropWhile_cons]
  simp [hws, hdig, hstart, htake, hdrop]

/-- Claim C8.  Each string in `keywords_`, `keywords1_` and `keywords2_` lexes
to exactly one token of kind Keyword, Keyword1, Keyword2 respectively
followed by a single EndOfFile token; and every nonempty run of
identifier-continue code points starting with an identifier-start code point
that is in none of the three sets lexes to a single Identifier token plus
EndOfFile. -/
theorem lexer_keyword_and_identifier_classification :
    (∀ s ∈ lexKeywords,
      tokenize s = [{ type := TokenType.Keyword, text := s }, eofToken]) ∧
    (∀ s ∈ lexKeywords1,
      tokenize s = [{ type := TokenType.Keyword1, text := s }, eofToken]) ∧
    (∀ s ∈ lexKeywords2,
      tokenize s = [{ type := TokenType.Keyword2, text := s }, eofToken]) ∧
    (∀ s : List Nat, s ≠ [] → isIdentStartCode (s.headD 0) = true →
      (∀ c ∈ s, isIdentContinueCode c = true) →
      lexKeywords.contains s = false → lexKeywords1.contains s = false →
      lexKeywords2.contains s = false →
      tokenize s = [{ type := TokenType.Identifier, text := s }, eofToken]) := by
  refine ⟨by decide, by decide, by decide, ?_⟩
  intro s hne hstart hall h0 h1 h2
  match s, hne with
  | c :: cs, _ =>
    have hclass : classifyIdentifier (c :: cs) = TokenType.Identifier := by
      unfold classifyIdentifier
      rw [h0, h1, h2]
      rfl
    have hnext := nextToken_identRun (by simpa using hstart) hall
    rw [hclass] at hnext
    show lexGo ((c :: cs).length + 1) (c :: cs) = _
    rw [List.length_cons]
    unfold lexGo
    rw [hnext]
    simp [lexGo, nextToken, eofToken]

/-- Witness for C8: the built-in `اطبع` lexes as Keyword1 + EOF, and the
identifier `مرحبا` (not in any keyword set) lexes as Identifier + EOF. -/
theorem lexer_keyword_and_identifier_classification_witness :
    tokenize (codes "اطبع") =
      [{ type := TokenType.Keyword1, text := codes "اطبع" }, eofToken] ∧
    tokenize (codes "مرحبا") =
      [{ type := TokenType.Identifier, text := codes "مرحبا" }, eofToken] :=
  ⟨lexer_keyword_and_identifier_classification.2.1 (codes "اطبع") (by decide),
   lexer_keyword_and_identifier_classification.2.2.2 (codes "مرحبا")
     (by decide) (by decide) (by decide) (by decide) (by decide) (by decide)⟩

end Analysis
end ALS

namespace ALS
namespace Features

/-- Character list of a Lean string literal; completion strings are compared
byte-wise in the source, and for valid UTF-8 the character level is
equivalent (UTF-8 is self-synchronizing). -/
def chars (s : String) : List Char := s.data

/-- CompletionProvider.cpp `std::string::find(pat) == 0`: `text` starts
with `pat`. -/
def leadsWith : List Char → List Char → Bool
  | _, [] => true
  | [], _ :: _ => false
  | c :: cs, p :: ps => c == p && leadsWith cs ps

/-- CompletionProvider.cpp `std::string::find(pat) != npos`: `pat` occurs
in `text` as a contiguous substring. -/
def hasSub (text pat : List Char) : Bool :=
  match text with
  | [] => pat.isEmpty
  | _ :: cs => leadsWith text pat || hasSub cs pat

/-- C-locale `::tolower` applied byte-wise in
`filterArabicCompletions`: lower-cases ASCII `A`–`Z`, leaves everything
else (including all multi-byte UTF-8 content) unchanged. -/
def lowerChar (c : Char) : Char :=
  if 65 ≤ c.toNat && c.toNat ≤ 90 then Char.ofNat (c.toNat + 32) else c

/-- ArabicCompletionItem.h `CompletionContext::Type`. -/
inductive ContextType where
  | Global | FunctionBody | ClassBody | IfCondition
  | LoopBody | FunctionCall | Assignment | Import
deriving DecidableEq, Repr

/-- Projection of ArabicCompletionItem.h `ArabicCompletionItem` to the fields
read by the completion filter and ranking code
(label, arabicName, filterText, priority, contexts, tags); the display-only
fields (kind, descriptions, examples, parameters, return info, insertText,
sortText, category) are read by no modelled function and are omitted. -/
structure ArabicCompletionItem where
  label : List Char
  arabicName : List Char
  filterText : List Char
  priority : Int
  contexts : List (List Char)
  tags : List (List Char)
deriving DecidableEq, Repr

/-- ArabicCompletionItem.cpp `isApplicableInContext`: empty `contexts` means
applicable everywhere, otherwise membership. -/
def isApplicableInContext (item : ArabicCompletionItem) (ctx : List Char) : Bool :=
  if item.contexts.isEmpty then true else item.contexts.contains ctx

/-- ArabicCompletionItem.cpp `hasTag`. -/
def hasTag (item : ArabicCompletionItem) (tag : List Char) : Bool :=
  item.tags.contains tag

/-- Projection of ArabicCompletionItem.h `CompletionContext` to the fields
read by the ranking code (`type` and `currentWord`). -/
structure CompletionContextM where
  type : ContextType
  currentWord : List Char
deriving DecidableEq, Repr

/-- ArabicCompletionDatabase.cpp `createFunction`: the item constructor sets
`arabicName`, `insertText`, `filterText`, `sortText` to the label, then the
helper assigns priority and `contexts = {"global","function","class"}`.
Description, parameter and usage-example fields are dropped by the
projection. -/
def createFunctionItem (name : String) (priority : Int) : ArabicCompletionItem :=
  { label := chars name, arabicName := chars name, filterText := chars name,
    priority := priority,
    contexts := [chars "global", chars "function", chars "class"], tags := [] }

/-- ArabicCompletionDatabase.cpp `createKeyword`: same ranking-relevant
fields as `createFunction` (they differ only in the dropped kind and
description fields). -/
def createKeywordItem (name : String) (priority : Int) : ArabicCompletionItem :=
  { label := chars name, arabicName := chars name, filterText := chars name,
    priority := priority,
    contexts := [chars "global", chars "function", chars "class"], tags := [] }

/-- Projection of ArabicCompletionItem.h `CodeSnippet` to the fields read by
`toCompletionItem`'s ranking-relevant output (name, priority, contexts). -/
structure CodeSnippet where
  name : List Char
  priority : Int
  contexts : List (List Char)
deriving DecidableEq, Repr

/-- ArabicCompletionItem.cpp `CodeSnippet::toCompletionItem`: constructor
defaults set label/arabicName/filterText to the name, then priority and
contexts are copied and the tag `"snippet"` appended. -/
def CodeSnippet.toCompletionItem (s : CodeSnippet) : ArabicCompletionItem :=
  { label := s.name, arabicName := s.name, filterText := s.name,
    priority := s.priority, contexts := s.contexts, tags := [chars "snippet"] }

/-- ArabicCompletionDatabase.cpp `getIOCompletions`. -/
def ioCompletions : List ArabicCompletionItem :=
  [createFunctionItem "اطبع" 95, createFunctionItem "اقرأ" 90,
   createFunctionItem "اقرأ_رقم" 85, createFunctionItem "اقرأ_رقم_عشري" 80]

/-- ArabicCompletionDatabase.cpp `getControlFlowCompletions`. -/
def controlFlowCompletions : List ArabicCompletionItem :=
  [createKeywordItem "اذا" 90, createKeywordItem "اواذا" 85,
   createKeywordItem "والا" 85, createKeywordItem "لكل" 88]

/-- ArabicCompletionDatabase.cpp `getDataTypeCompletions`. -/
def dataTypeCompletions : List ArabicCompletionItem :=
  [createKeywordItem "متغير" 95, createKeywordItem "ثابت" 90,
   createKeywordItem "نص" 85, createKeywordItem "رقم" 85,
   createKeywordItem "رقم_عشري" 85, createKeywordItem "منطقي" 85,
   createKeywordItem "صحيح" 80, createKeywordItem "خطأ" 80]

/-- ArabicCompletionDatabase.cpp `getMathCompletions`. -/
def mathCompletions : List ArabicCompletionItem :=
  [createFunctionItem "جذر" 75, createFunctionItem "قوة" 75,
   createFunctionItem "مطلق" 70, createFunctionItem "عشوائي" 70]

/-- ArabicCompletionDatabase.cpp `getStringCompletions`. -/
def stringCompletions : List ArabicCompletionItem :=
  [createFunctionItem "طول" 80, createFunctionItem "يحتوي" 75,
   createFunctionItem "استبدل" 75]

/-- ArabicCompletionDatabase.cpp `getArrayCompletions`. -/
def arrayCompletions : List ArabicCompletionItem :=
  [createKeywordItem "مصفوفة" 85, createFunctionItem "أضف" 80,
   createFunctionItem "احذف" 75]

/-- ArabicCompletionDatabase.cpp `getFunctionCompletions`. -/
def functionCompletions : List ArabicCompletionItem :=
  [createKeywordItem "دالة" 90, createKeywordItem "ارجع" 85]

/-- ArabicCompletionDatabase.cpp `getClassCompletions`. -/
def classCompletions : List ArabicCompletionItem :=
  [createKeywordItem "فئة" 85, createKeywordItem "عام" 75,
   createKeywordItem "خاص" 75]

/-- ArabicCompletionDatabase.cpp `getErrorHandlingCompletions`. -/
def errorHandlingCompletions : List ArabicCompletionItem :=
  [createKeywordItem "حاول" 80, createKeywordItem "اصطد" 80]

/-- ArabicCompletionDatabase.cpp `getFileIOCompletions`. -/
def fileIoCompletions : List ArabicCompletionItem :=
  [createFunctionItem "اقرأ_ملف" 70, createFunctionItem "اكتب_ملف" 70]

/-- ArabicCompletionDatabase.cpp `getAllCompletions` after lazy init: the ten
category lists concatenated in initialization order. -/
def getAllCompletions : List ArabicCompletionItem :=
  ioCompletions ++ controlFlowCompletions ++ dataTypeCompletions ++
  mathCompletions ++ stringCompletions ++ arrayCompletions ++
  functionCompletions ++ classCompletions ++ errorHandlingCompletions ++
  fileIoCompletions

/-- ArabicCompletionDatabase.cpp `getControlFlowSnippets`. -/
def controlFlowSnippets : List CodeSnippet :=
  [{ name := chars "حلقة للعد", priority := 85,
     contexts := [chars "global", chars "function"] },
   { name := chars "حلقة عبر مصفوفة", priority := 85,
     contexts := [chars "global", chars "function"] },
   { name := chars "شرط كامل", priority := 80,
     contexts := [chars "global", chars "function"] }]

/-- ArabicCompletionDatabase.cpp `getFunctionSnippets`. -/
def functionSnippets : List CodeSnippet :=
  [{ name := chars "دالة جديدة", priority := 80, contexts := [chars "global"] },
   { name := chars "دالة بدون إرجاع", priority := 75, contexts := [chars "global"] }]

/-- ArabicCompletionDatabase.cpp `getClassSnippets`. -/
def classSnippets : List CodeSnippet :=
  [{ name := chars "فئة جديدة", priority := 75, contexts := [chars "global"] }]

/-- ArabicCompletionDatabase.cpp `getCommonPatternSnippets`. -/
def commonPatternSnippets : List CodeSnippet :=
  [{ name := chars "برنامج رئيسي", priority := 90, contexts := [chars "global"] },
   { name := chars "معالجة الأخطاء", priority := 75,
     contexts := [chars "global", chars "function"] }]

/-- ArabicCompletionDatabase.cpp `getBuiltinSnippets` after lazy init. -/
def getBuiltinSnippets : List CodeSnippet :=
  controlFlowSnippets ++ functionSnippets ++ classSnippets ++ commonPatternSnippets

/-- ArabicCompletionDatabase.cpp `getCompletionsForContext`. -/
def getCompletionsForContext (ctx : List Char) : List ArabicCompletionItem :=
  getAllCompletions.filter (fun item => isApplicableInContext item ctx)

/-- Scope-to-string switch inside CompletionProvider.cpp
`calculateCompletionPriority` (FunctionBody → "function", ClassBody →
"class", Global and everything else → "global"). -/
def scopeString (t : ContextType) : List Char :=
  match t with
  | ContextType.FunctionBody => chars "function"
  | ContextType.ClassBody => chars "class"
  | ContextType.Global => chars "global"
  | _ => chars "global"

/-- Scope-to-string switch inside CompletionProvider.cpp
`getContextualArabicCompletions` (this one also maps IfCondition →
"condition" and LoopBody → "loop"). -/
def contextString (t : ContextType) : List Char :=
  match t with
  | ContextType.Global => chars "global"
  | ContextType.FunctionBody => chars "function"
  | ContextType.ClassBody => chars "class"
  | ContextType.IfCondition => chars "condition"
  | ContextType.LoopBody => chars "loop"
  | _ => chars "global"

/-- CompletionProvider.cpp `getContextualArabicCompletions`
(`analyzeCompletionContext` returns `context.type` unchanged). -/
def getContextualArabicCompletions (ctx : CompletionContextM) : List ArabicCompletionItem :=
  getCompletionsForContext (contextString ctx.type)

/-- CompletionProvider.cpp `calculateCompletionPriority`. -/
def calculateCompletionPriority (item : ArabicCompletionItem)
    (ctx : CompletionContextM) : Int :=
  let p1 := if isApplicableInContext item (scopeString ctx.type)
    then item.priority + 20 else item.priority
  let p2 := if !ctx.currentWord.isEmpty then
      (if leadsWith item.arabicName ctx.currentWord then p1 + 30
       else if hasSub item.arabicName ctx.currentWord then p1 + 10 else p1)
    else p1
  if hasTag item (chars "basic") || hasTag item (chars "beginner")
    then p2 + 15 else p2

/-- CompletionProvider.cpp `filterArabicCompletions`. -/
def filterArabicCompletions (items : List ArabicCompletionItem)
    (word : List Char) : List ArabicCompletionItem :=
  if word.isEmpty then items
  else items.filter (fun item =>
    leadsWith item.arabicName word ||
    leadsWith item.label word ||
    (!item.filterText.isEmpty && leadsWith item.filterText word) ||
    hasSub (item.arabicName.map lowerChar) (word.map lowerChar))

/-- Comparator lambda passed to `std::sort` in
CompletionProvider.cpp `provideArabicCompletions`. -/
def completionBefore (ctx : CompletionContextM)
    (a b : ArabicCompletionItem) : Bool :=
  let pa := calculateCompletionPriority a ctx
  let pb := calculateCompletionPriority b ctx
  if pa ≠ pb then pa > pb else a.priority > b.priority

/-- Insertion step of the sort.  `std::sort` is an unstable comparison sort:
any output is ordered by the comparator; insertion sort realizes that same
postcondition deterministically. -/
def insertByScore (ctx : CompletionContextM) (x : ArabicCompletionItem) :
    List ArabicCompletionItem → List ArabicCompletionItem
  | [] => [x]
  | y :: ys =>
    if completionBefore ctx y x then y :: insertByScore ctx x ys
    else x :: y :: ys

/-- Sorting pass of CompletionProvider.cpp `provideArabicCompletions`. -/
def sortByScore (ctx : CompletionContextM) (l : List ArabicCompletionItem) :
    List ArabicCompletionItem :=
  l.foldr (insertByScore ctx) []

/-- CompletionProvider.cpp `provideArabicCompletions`: database items plus
snippet items plus contextual items, filtered by the current word, sorted by
the comparator, truncated to 50. -/
def provideArabicCompletions (ctx : CompletionContextM) :
    List ArabicCompletionItem :=
  let all := getAllCompletions ++ getBuiltinSnippets.map CodeSnippet.toCompletionItem
  let all2 := all ++ getContextualArabicCompletions ctx
  let filtered := filterArabicCompletions all2 ctx.currentWord
  (sortByScore ctx filtered).take 50

/-- Score formula exactly as claim C9 words it (spec §4.5 step 6): priority
plus a +20 context bonus, plus +30 if `arabicName` starts with
`current_word` else +10 if it contains it, plus +15 for a basic/beginner
tag.  Written from the claim's words for refutation; note it has no
empty-word guard on the prefix bonus. -/
def claimedCompletionScore (item : ArabicCompletionItem)
    (ctx : CompletionContextM) : Int :=
  item.priority
  + (if isApplicableInContext item (scopeString ctx.type) then 20 else 0)
  + (if leadsWith item.arabicName ctx.currentWord then 30
     else if hasSub item.arabicName ctx.currentWord then 10 else 0)
  + (if hasTag item (chars "basic") || hasTag item (chars "beginner") then 15 else 0)

/-- Amended score formula: identical to the claimed one except that the
prefix/contains bonus is only awarded when `current_word` is nonempty, which
is what `calculateCompletionPriority` implements. -/
def amendedCompletionScore (item : ArabicCompletionItem)
    (ctx : CompletionContextM) : Int :=
  item.priority
  + (if isApplicableInContext item (scopeString ctx.type) then 20 else 0)
  + (if !ctx.currentWord.isEmpty then
      (if leadsWith item.arabicName ctx.currentWord then 30
       else if hasSub item.arabicName ctx.currentWord then 10 else 0)
     else 0)
  + (if hasTag item (chars "basic") || hasTag item (chars "beginner") then 15 else 0)

/-- Ordering relation the returned list is proved to satisfy: strictly
greater score first, ties broken by the item's static priority
(non-strictly). -/
def rankedBefore (ctx : CompletionContextM)
    (a b : ArabicCompletionItem) : Prop :=
  calculateCompletionPriority a ctx > calculateCompletionPriority b ctx ∨
  (calculateCompletionPriority a ctx = calculateCompletionPriority b ctx ∧
    a.priority ≥ b.priority)

/-- Counterexample to claim C9 as stated: for the database item `جذر`
(priority 75, contexts `{"global","function","class"}`, no tags) in the
Global scope with an empty `current_word`, the code computes 75 + 20 = 95,
while the claimed formula awards the +30 prefix bonus (every string starts
with the empty string) giving 125. -/
theorem completion_score_claim_counterexample :
    calculateCompletionPriority (createFunctionItem "جذر" 75)
      { type := ContextType.Global, currentWord := [] } = 95 ∧
    claimedCompletionScore (createFunctionItem "جذر" 75)
      { type := ContextType.Global, currentWord := [] } = 125 ∧
    calculateCompletionPriority (createFunctionItem "جذر" 75)
      { type := ContextType.Global, currentWord := [] } ≠
    claimedCompletionScore (createFunctionItem "جذر" 75)
      { type := ContextType.Global, currentWord := [] } := by
  refine ⟨by decide, by decide, by decide⟩

theorem rankedBefore_of_not_before {ctx : CompletionContextM}
    {a b : ArabicCompletionItem}
    (h : completionBefore ctx b a = false) : rankedBefore ctx a b := by
  unfold completionBefore at h
  unfold rankedBefore
  by_cases hq : calculateCompletionPriority b ctx = calculateCompletionPriority a ctx
  · simp [hq] at h
    omega
  · simp [hq] at h
    omega

theorem rankedBefore_trans {ctx : CompletionContextM}
    {a b c : ArabicCompletionItem}
    (h1 : rankedBefore ctx a b) (h2 : rankedBefore ctx b c) :
    rankedBefore ctx a c := by
  unfold rankedBefore at h1 h2 ⊢
  omega

theorem rankedBefore_of_before {ctx : CompletionContextM}
    {a b : ArabicCompletionItem}
    (h : completionBefore ctx a b = true) : rankedBefore ctx a b := by
  unfold completionBefore at h
  unfold rankedBefore
  by_cases hq : calculateCompletionPriority a ctx = calculateCompletionPriority b ctx
  · simp [hq] at h
    omega
  · simp [hq] at h
    omega

theorem mem_insertByScore {ctx : CompletionContextM}
    {x z : ArabicCompletionItem} :
    ∀ {l : List ArabicCompletionItem}, z ∈ insertByScore ctx x l →
      z = x ∨ z ∈ l := by
  intro l
  induction l with
  | nil => intro h; simp [insertByScore] at h; exact Or.inl h
  | cons y ys ih =>
    intro h
    unfold insertByScore at h
    by_cases hc : completionBefore ctx y x = true
    · simp [hc] at h
      rcases h with h | h
      · exact Or.inr (by simp [h])
      · rcases ih h with h' | h'
        · exact Or.inl h'
        · exact Or.inr (List.mem_cons_of_mem y h')
    · simp [hc] at h
      rcases h with h | h | h
      · exact Or.inl h
      · exact Or.inr (by simp [h])
      · exact Or.inr (List.mem_cons_of_mem y h)

theorem pairwise_insertByScore {ctx : CompletionContextM}
    {x : ArabicCompletionItem} :
    ∀ {l : List ArabicCompletionItem},
      l.Pairwise (rankedBefore ctx) →
      (insertByScore ctx x l).Pairwise (rankedBefore ctx) := by
  intro l
  induction l with
  | nil => intro _; simp [insertByScore]
  | cons y ys ih =>
    intro h
    rcases List.pairwise_cons.mp h with ⟨hy, hys⟩
    unfold insertByScore
    by_cases hc : completionBefore ctx y x = true
    · simp only [hc, if_true]
      refine List.pairwise_cons.mpr ⟨?_, ih hys⟩
      intro z hz
      rcases mem_insertByScore hz with rfl | hz'
      · exact rankedBefore_of_before hc
      · exact hy z hz'
    · simp only [hc, if_false]
      refine List.pairwise_cons.mpr ⟨?_, h⟩
      intro z hz
      rcases List.mem_cons.mp hz with rfl | hz'
      · exact rankedBefore_of_not_before (by simpa using hc)
      · exact rankedBefore_trans
          (rankedBefore_of_not_before (by simpa using hc)) (hy z hz')

theorem pairwise_sortByScore (ctx : CompletionContextM)
    (l : List ArabicCompletionItem) :
    (sortByScore ctx l).Pairwise (rankedBefore ctx) := by
  unfold sortByScore
  induction l with
  | nil => simp
  | cons y ys ih => exact pairwise_insertByScore ih

/-- Claim C9 amended.  Every item's computed score is
`priority + context bonus + (prefix/contains bonus, awarded only when
current_word is nonempty) + tag bonus`; the returned completion list is
ordered by descending score with ties broken by static priority; and it
never exceeds 50 items. -/
theorem completion_score_sort_truncate :
    (∀ (item : ArabicCompletionItem) (ctx : CompletionContextM),
      calculateCompletionPriority item ctx = amendedCompletionScore item ctx) ∧
    (∀ ctx : CompletionContextM,
      (provideArabicCompletions ctx).Pairwise (rankedBefore ctx)) ∧
    (∀ ctx : CompletionContextM, (provideArabicCompletions ctx).length ≤ 50) := by
  refine ⟨?_, ?_, ?_⟩
  · intro item ctx
    unfold calculateCompletionPriority amendedCompletionScore
    by_cases h1 : isApplicableInContext item (scopeString ctx.type) = true <;>
    by_cases h2 : ctx.currentWord.isEmpty = true <;>
    by_cases h3 : leadsWith item.arabicName ctx.currentWord = true <;>
    by_cases h4 : hasSub item.arabicName ctx.currentWord = true <;>
    by_cases h5 : (hasTag item (chars "basic") || hasTag item (chars "beginner")) = true <;>
    simp [h1, h2, h3, h4, h5] <;> omega
  · intro ctx
    unfold provideArabicCompletions
    exact List.Pairwise.sublist (List.take_sublist _ _)
      (pairwise_sortByScore ctx _)
  · intro ctx
    unfold provideArabicCompletions
    exact List.length_take_le _ _

/-- Claim C10.  Filtering Arabic completion candidates with an empty current
word is the identity. -/
theorem filter_arabic_empty_word_identity :
    ∀ items : List ArabicCompletionItem,
      filterArabicCompletions items [] = items := by
  intro items
  rfl

end Features
end ALS

namespace ALS
namespace Core

/-- ThreadPool.h `TaskPriority` (LOW = 0 … URGENT = 3). -/
inductive TaskPriority where
  | LOW | NORMAL | HIGH | URGENT
deriving DecidableEq, Repr

/-- Underlying integer value of the `TaskPriority` enum. -/
def TaskPriority.toNat : TaskPriority → Nat
  | TaskPriority.LOW => 0
  | TaskPriority.NORMAL => 1
  | TaskPriority.HIGH => 2
  | TaskPriority.URGENT => 3

/-- Projection of ThreadPool.h `Task`.  `tokenSet` is the value the shared
cancellation token holds when a worker dequeues the task (`false` also covers
a null token); stores to the atomic flag only ever set it, and the sequential
model reads one value per execution.  `throws` records whether the packaged
user function raises.  The `function` closure itself is represented by its
observable effect on the statistics (`runTaskWrapper` below). -/
structure PoolTask where
  priority : TaskPriority
  submitTime : Nat
  tokenSet : Bool
  throws : Bool
deriving DecidableEq, Repr

/-- ThreadPool.h `Task::operator<`: compare priorities first (higher wins),
then submit times (earlier wins).  `taskLt a b` means `a < b`, i.e. `b` is
dequeued before `a`. -/
def taskLt (a b : PoolTask) : Bool :=
  if a.priority.toNat ≠ b.priority.toNat then a.priority.toNat < b.priority.toNat
  else a.submitTime > b.submitTime

/-- Dequeue of `std::priority_queue::top` + `pop`: remove a maximal element
with respect to `taskLt`.  With a strict weak order the maximum is unique up
to equivalence; this implementation keeps the earliest equivalent element. -/
def popMax : List PoolTask → Option (PoolTask × List PoolTask)
  | [] => none
  | t :: ts =>
    match popMax ts with
    | none => some (t, [])
    | some (m, rest) =>
      if taskLt t m then some (m, t :: rest) else some (t, ts)

/-- Relation "is dequeued no later than": strictly higher priority, or equal
priority and no later submit time. -/
def execBefore (a b : PoolTask) : Prop :=
  a.priority.toNat > b.priority.toNat ∨
  (a.priority.toNat = b.priority.toNat ∧ a.submitTime ≤ b.submitTime)

theorem taskLt_eq_false_iff {a b : PoolTask} :
    taskLt a b = false ↔
      (b.priority.toNat < a.priority.toNat ∨
        (a.priority.toNat = b.priority.toNat ∧ a.submitTime ≤ b.submitTime)) := by
  unfold taskLt
  by_cases hq : a.priority.toNat = b.priority.toNat <;> simp [hq] <;> omega

theorem taskLt_iff {a b : PoolTask} :
    taskLt a b = true ↔
      (a.priority.toNat < b.priority.toNat ∨
        (a.priority.toNat = b.priority.toNat ∧ a.submitTime > b.submitTime)) := by
  unfold taskLt
  by_cases hq : a.priority.toNat = b.priority.toNat <;> simp [hq] <;> omega

theorem taskLt_asymm {a b : PoolTask} (h : taskLt a b = true) :
    taskLt b a = false := by
  rw [taskLt_iff] at h
  rw [taskLt_eq_false_iff]
  omega

theorem taskLt_neg_trans {a b c : PoolTask} (h1 : taskLt a b = false)
    (h2 : taskLt b c = false) : taskLt a c = false := by
  rw [taskLt_eq_false_iff] at h1 h2 ⊢
  omega

theorem execBefore_of_not_lt {a b : PoolTask} (h : taskLt a b = false) :
    execBefore a b := by
  rw [taskLt_eq_false_iff] at h
  unfold execBefore
  omega

theorem popMax_eq_none {l : List PoolTask} (h : popMax l = none) : l = [] := by
  cases l with
  | nil => rfl
  | cons t ts =>
    unfold popMax at h
    rcases hm : popMax ts with _ | ⟨m, rest⟩ <;> rw [hm] at h <;> simp at h
    by_cases hlt : taskLt t m = true <;> simp [hlt] at h

theorem popMax_perm :
    ∀ {l : List PoolTask} {m : PoolTask} {rest : List PoolTask},
      popMax l = some (m, rest) → l.Perm (m :: rest) := by
  intro l
  induction l with
  | nil => intro m rest h; simp [popMax] at h
  | cons t ts ih =>
    intro m rest h
    unfold popMax at h
    rcases hm : popMax ts with _ | ⟨m', rest'⟩ <;> rw [hm] at h
    · have hts : ts = [] := popMax_eq_none hm
      subst hts
      simp at h
      obtain ⟨rfl, rfl⟩ := h
      exact List.Perm.refl _
    · by_cases hlt : taskLt t m' = true
      · simp [hlt] at h
        obtain ⟨rfl, rfl⟩ := h
        exact List.Perm.trans (List.Perm.cons t (ih hm)) (List.Perm.swap _ t _)
      · simp [hlt] at h
        obtain ⟨rfl, rfl⟩ := h
        exact List.Perm.refl _

theorem popMax_max :
    ∀ {l : List PoolTask} {m : PoolTask} {rest : List PoolTask},
      popMax l = some (m, rest) → ∀ x ∈ rest, taskLt m x = false := by
  intro l
  induction l with
  | nil => intro m rest h; simp [popMax] at h
  | cons t ts ih =>
    intro m rest h x hx
    unfold popMax at h
    rcases hm : popMax ts with _ | ⟨m', rest'⟩ <;> rw [hm] at h
    · simp at h
      obtain ⟨rfl, rfl⟩ := h
      simp at hx
    · by_cases hlt : taskLt t m' = true
      · simp [hlt] at h
        obtain ⟨rfl, rfl⟩ := h
        rcases List.mem_cons.mp hx with rfl | hx'
        · exact taskLt_asymm hlt
        · exact ih hm x hx'
      · simp [hlt] at h
        obtain ⟨rfl, rfl⟩ := h
        have hperm := popMax_perm hm
        have hnot := Bool.eq_false_iff.mpr hlt
        rcases List.mem_cons.mp (hperm.mem_iff.mp hx) with rfl | hx'
        · exact hnot
        · exact taskLt_neg_trans hnot (ih hm x hx')

/-- Dequeue trace of ThreadPool.cpp `workerLoop` run by a single worker on
an otherwise idle pool: each iteration takes `task_queue_.top()` and pops it.
Fuel `q.length` suffices since every step removes one task. -/
def drainOrder : Nat → List PoolTask → List PoolTask
  | 0, _ => []
  | fuel + 1, q =>
    match popMax q with
    | none => []
    | some (m, rest) => m :: drainOrder fuel rest

/-- Order in which one idle worker dequeues all tasks of a queue. -/
def execOrder (q : List PoolTask) : List PoolTask := drainOrder q.length q

theorem drainOrder_subset :
    ∀ (fuel : Nat) (q : List PoolTask), ∀ z ∈ drainOrder fuel q, z ∈ q := by
  intro fuel
  induction fuel with
  | zero => intro q z hz; simp [drainOrder] at hz
  | succ n ih =>
    intro q z hz
    unfold drainOrder at hz
    rcases hm : popMax q with _ | ⟨m, rest⟩ <;> rw [hm] at hz
    · simp at hz
    · simp at hz
      have hperm := popMax_perm hm
      rcases hz with rfl | hz'
      · exact hperm.mem_iff.mpr (List.mem_cons_self _ _)
      · exact hperm.mem_iff.mpr (List.mem_cons_of_mem _ (ih rest z hz'))

theorem drainOrder_pairwise :
    ∀ (fuel : Nat) (q : List PoolTask),
      (drainOrder fuel q).Pairwise execBefore := by
  intro fuel
  induction fuel with
  | zero => intro q; simp [drainOrder]
  | succ n ih =>
    intro q
    unfold drainOrder
    rcases hm : popMax q with _ | ⟨m, rest⟩
    · simp
    · refine List.pairwise_cons.mpr ⟨?_, ih rest⟩
      intro z hz
      exact execBefore_of_not_lt (popMax_max hm z (drainOrder_subset n rest z hz))

theorem drainOrder_perm :
    ∀ (fuel : Nat) (q : List PoolTask), q.length ≤ fuel →
      (drainOrder fuel q).Perm q := by
  intro fuel
  induction fuel with
  | zero =>
    intro q hq
    have : q = [] := List.eq_nil_of_length_eq_zero (Nat.le_zero.mp hq)
    subst this
    simp [drainOrder]
  | succ n ih =>
    intro q hq
    unfold drainOrder
    rcases hm : popMax q with _ | ⟨m, rest⟩
    · have : q = [] := popMax_eq_none hm
      subst this
      simp
    · have hperm := popMax_perm hm
      have hlen : q.length = rest.length + 1 := by
        have := hperm.length_eq
        simpa using this
      have hrest : rest.length ≤ n := by omega
      exact List.Perm.trans (List.Perm.cons m (ih rest hrest)) hperm.symm

/-- Claim C6.  Tasks leave the pool's priority queue ordered by (priority
descending, submit time ascending): the dequeue trace is a permutation of the
queue that is pairwise ordered by `execBefore`; in particular, with one idle
worker a LOW task submitted at time 0 runs after a HIGH task submitted at
time 1, and two NORMAL tasks run in submission order. -/
theorem threadpool_priority_fifo_order :
    (∀ q : List PoolTask,
      (execOrder q).Perm q ∧ (execOrder q).Pairwise execBefore) ∧
    execOrder
      [{ priority := TaskPriority.LOW, submitTime := 0, tokenSet := false, throws := false },
       { priority := TaskPriority.HIGH, submitTime := 1, tokenSet := false, throws := false }] =
      [{ priority := TaskPriority.HIGH, submitTime := 1, tokenSet := false, throws := false },
       { priority := TaskPriority.LOW, submitTime := 0, tokenSet := false, throws := false }] ∧
    execOrder
      [{ priority := TaskPriority.NORMAL, submitTime := 0, tokenSet := false, throws := false },
       { priority := TaskPriority.NORMAL, submitTime := 1, tokenSet := false, throws := false }] =
      [{ priority := TaskPriority.NORMAL, submitTime := 0, tokenSet := false, throws := false },
       { priority := TaskPriority.NORMAL, submitTime := 1, tokenSet := false, throws := false }] := by
  refine ⟨fun q => ⟨drainOrder_perm q.length q (Nat.le_refl _), drainOrder_pairwise q.length q⟩,
    by decide, by decide⟩

/-- Projection of ThreadPool.h `TaskStats` to the four counters (the
execution-time fields measure wall-clock time, which is not modelled). -/
structure TaskStats where
  submitted : Nat
  completed : Nat
  cancelled : Nat
  failed : Nat
deriving DecidableEq, Repr

/-- Queue plus statistics of a `ThreadPool` (worker threads are modelled by
`workerStep` below; `stop_` stays false for the whole scenario, as in the
running server). -/
structure PoolState where
  queue : List PoolTask
  stats : TaskStats
deriving DecidableEq, Repr

/-- Pool state right after construction. -/
def initPoolState : PoolState :=
  { queue := [], stats := { submitted := 0, completed := 0, cancelled := 0, failed := 0 } }

/-- ThreadPool.cpp `shouldCancel`: `token && token->load()`; `tokenSet` is
false for a null token. -/
def shouldCancel (t : PoolTask) : Bool := t.tokenSet

/-- Statistics effect of the wrapper lambda built in ThreadPool.h
`submitCancellable` (lines 222–247): re-check the token and count
`cancelled`, otherwise run the packaged task and count `completed` on return
or `failed` on an exception. -/
def runTaskWrapper (t : PoolTask) (st : TaskStats) : TaskStats :=
  if shouldCancel t then { st with cancelled := st.cancelled + 1 }
  else if t.throws then { st with failed := st.failed + 1 }
  else { st with completed := st.completed + 1 }

/-- ThreadPool.h `submitCancellable`: a full queue raises before anything is
enqueued or counted (modelled as no state change); otherwise the task is
enqueued and `submitted` incremented. -/
def submitCancellable (maxQueue : Nat) (t : PoolTask) (s : PoolState) : PoolState :=
  if s.queue.length ≥ maxQueue then s
  else { queue := s.queue ++ [t],
         stats := { s.stats with submitted := s.stats.submitted + 1 } }

/-- ThreadPool.cpp `cancelAllTasks`: drop every queued task and add the count
to `cancelled`. -/
def cancelAllTasks (s : PoolState) : PoolState :=
  { queue := [],
    stats := { s.stats with cancelled := s.stats.cancelled + s.queue.length } }

/-- One iteration of ThreadPool.cpp `workerLoop` with a nonempty queue: pop
the top task; if `shouldCancel` reads true the task's function is skipped
(and nothing is counted), otherwise the wrapper runs and updates the
statistics. -/
def workerStep (s : PoolState) : PoolState :=
  match popMax s.queue with
  | none => s
  | some (m, rest) =>
    { queue := rest,
      stats := if shouldCancel m then s.stats else runTaskWrapper m s.stats }

/-- Workers run until the queue is empty. -/
def drainPool : Nat → PoolState → PoolState
  | 0, s => s
  | fuel + 1, s =>
    match popMax s.queue with
    | none => s
    | some _ => drainPool fuel (workerStep s)

/-- Pool state after the queue has fully drained
(`waitForCompletion` returning true). -/
def drained (s : PoolState) : PoolState := drainPool s.queue.length s

/-- Submission and cancel-all calls made against the pool before it drains. -/
inductive PoolOp where
  | submit (t : PoolTask)
  | cancelAll
deriving DecidableEq, Repr

/-- Apply one pool operation. -/
def applyPoolOp (maxQueue : Nat) (s : PoolState) : PoolOp → PoolState
  | PoolOp.submit t => submitCancellable maxQueue t s
  | PoolOp.cancelAll => cancelAllTasks s

/-- Run a sequence of pool operations from the freshly constructed pool.
The LspServer constructs its pool with `max_queue = 1000`. -/
def runPoolOps (maxQueue : Nat) (ops : List PoolOp) : PoolState :=
  ops.foldl (applyPoolOp maxQueue) initPoolState

/-- Conservation statement of claim C5globalized to a state: every submitted
task is accounted for by the three completion counters or is still queued. -/
def statsBalanced (s : PoolState) : Prop :=
  s.stats.submitted =
    s.stats.completed + s.stats.cancelled + s.stats.failed + s.queue.length

/-- No queued task has its cancellation token already set. -/
def cleanTokens (s : PoolState) : Prop := ∀ t ∈ s.queue, t.tokenSet = false

/-- An operation whose submitted task (if any) has an unset token. -/
def opClean : PoolOp → Prop
  | PoolOp.submit t => t.tokenSet = false
  | PoolOp.cancelAll => True

/-- Counterexample state for claim C5: one task whose cancellation token is
already set when submitted, then a full drain. -/
def c5Example : PoolState :=
  drained (submitCancellable 1000
    { priority := TaskPriority.NORMAL, submitTime := 0,
      tokenSet := true, throws := false } initPoolState)

/-- Counterexample to claim C5 as stated: after the pool drains with one
submitted task whose token was set before pickup, `submitted = 1` but
`completed = cancelled = failed = 0` — `workerLoop` skips the task's function
without counting it, so the conservation equation fails. -/
theorem threadpool_stats_claim_counterexample :
    c5Example.queue = [] ∧
    c5Example.stats.submitted = 1 ∧
    c5Example.stats.completed = 0 ∧
    c5Example.stats.cancelled = 0 ∧
    c5Example.stats.failed = 0 ∧
    ¬ (c5Example.stats.submitted =
        c5Example.stats.completed + c5Example.stats.cancelled +
        c5Example.stats.failed) := by
  refine ⟨by decide, by decide, by decide, by decide, by decide, by decide⟩

theorem submit_preserves {maxQueue : Nat} {t : PoolTask} {s : PoolState}
    (hb : statsBalanced s) (hc : cleanTokens s) (ht : t.tokenSet = false) :
    statsBalanced (submitCancellable maxQueue t s) ∧
      cleanTokens (submitCancellable maxQueue t s) := by
  unfold submitCancellable
  by_cases hfull : s.queue.length ≥ maxQueue
  · simp [hfull]
    exact ⟨hb, hc⟩
  · simp [hfull]
    constructor
    · unfold statsBalanced at hb ⊢
      simp
      omega
    · unfold cleanTokens at hc ⊢
      intro x hx
      simp at hx
      rcases hx with hx | rfl
      · exact hc x hx
      · exact ht

theorem cancelAll_preserves {s : PoolState}
    (hb : statsBalanced s) (hc : cleanTokens s) :
    statsBalanced (cancelAllTasks s) ∧ cleanTokens (cancelAllTasks s) := by
  unfold cancelAllTasks
  constructor
  · unfold statsBalanced at hb ⊢
    simp
    omega
  · intro x hx
    simp at hx

theorem workerStep_preserves {s : PoolState}
    (hb : statsBalanced s) (hc : cleanTokens s) :
    statsBalanced (workerStep s) ∧ cleanTokens (workerStep s) := by
  unfold workerStep
  rcases hm : popMax s.queue with _ | ⟨m, rest⟩
  · exact ⟨hb, hc⟩
  · have hperm := popMax_perm hm
    have hmem : m ∈ s.queue := hperm.mem_iff.mpr (List.mem_cons_self _ _)
    have hmtok : m.tokenSet = false := hc m hmem
    have hlen : s.queue.length = rest.length + 1 := by
      have := hperm.length_eq
      simpa using this
    constructor
    · unfold statsBalanced at hb ⊢
      simp only [shouldCancel, hmtok, Bool.false_eq_true, if_false]
      unfold runTaskWrapper shouldCancel
      rw [hmtok]
      by_cases hthrow : m.throws = true <;> simp [hthrow] <;> omega
    · intro x hx
      exact hc x (hperm.mem_iff.mpr (List.mem_cons_of_mem _ hx))

theorem drainPool_preserves :
    ∀ (fuel : Nat) (s : PoolState), statsBalanced s → cleanTokens s →
      statsBalanced (drainPool fuel s) ∧ cleanTokens (drainPool fuel s) := by
  intro fuel
  induction fuel with
  | zero => intro s hb hc; exact ⟨hb, hc⟩
  | succ n ih =>
    intro s hb hc
    unfold drainPool
    rcases hm : popMax s.queue with _ | ⟨m, rest⟩
    · exact ⟨hb, hc⟩
    · obtain ⟨hb', hc'⟩ := workerStep_preserves hb hc
      exact ih _ hb' hc'

theorem drainPool_empties :
    ∀ (fuel : Nat) (s : PoolState), s.queue.length ≤ fuel →
      (drainPool fuel s).queue = [] := by
  intro fuel
  induction fuel with
  | zero =>
    intro s hs
    exact List.eq_nil_of_length_eq_zero (Nat.le_zero.mp hs)
  | succ n ih =>
    intro s hs
    unfold drainPool
    rcases hm : popMax s.queue with _ | ⟨m, rest⟩
    · exact popMax_eq_none hm
    · have hperm := popMax_perm hm
      have hlen : s.queue.length = rest.length + 1 := by
        have := hperm.length_eq
        simpa using this
      have hstep : (workerStep s).queue = rest := by
        unfold workerStep
        rw [hm]
      refine ih (workerStep s) ?_
      rw [hstep]
      omega

theorem runPoolOps_preserves (maxQueue : Nat) :
    ∀ (ops : List PoolOp) (s : PoolState), statsBalanced s → cleanTokens s →
      (∀ op ∈ ops, opClean op) →
      statsBalanced (ops.foldl (applyPoolOp maxQueue) s) ∧
        cleanTokens (ops.foldl (applyPoolOp maxQueue) s) := by
  intro ops
  induction ops with
  | nil => intro s hb hc _; exact ⟨hb, hc⟩
  | cons op rest ih =>
    intro s hb hc hclean
    have hop := hclean op (List.mem_cons_self _ _)
    have hrest : ∀ o ∈ rest, opClean o :=
      fun o ho => hclean o (List.mem_cons_of_mem _ ho)
    rcases op with t | _
    · obtain ⟨hb', hc'⟩ := submit_preserves hb hc hop
      exact ih _ hb' hc' hrest
    · obtain ⟨hb', hc'⟩ := cancelAll_preserves hb hc
      exact ih _ hb' hc' hrest

/-- Claim C5 amended.  After the pool drains, `submitted = completed +
cancelled + failed` holds for every sequence of submissions and `cancel_all`
calls in which no task's cancellation token is already set when a worker
dequeues it (tasks dropped by `cancelAllTasks` are counted as cancelled).  A
task whose token is set at pickup is skipped by `workerLoop` without being
counted, which is exactly the case the counterexample exhibits. -/
theorem threadpool_stats_conservation_amended :
    ∀ ops : List PoolOp, (∀ op ∈ ops, opClean op) →
      (drained (runPoolOps 1000 ops)).queue = [] ∧
      (drained (runPoolOps 1000 ops)).stats.submitted =
        (drained (runPoolOps 1000 ops)).stats.completed +
        (drained (runPoolOps 1000 ops)).stats.cancelled +
        (drained (runPoolOps 1000 ops)).stats.failed := by
  intro ops hclean
  have hinit_b : statsBalanced initPoolState := by
    unfold statsBalanced initPoolState
    simp
  have hinit_c : cleanTokens initPoolState := by
    intro t ht
    simp [initPoolState] at ht
  obtain ⟨hb, hc⟩ := runPoolOps_preserves 1000 ops initPoolState hinit_b hinit_c hclean
  have hempty : (drained (runPoolOps 1000 ops)).queue = [] :=
    drainPool_empties _ _ (Nat.le_refl _)
  obtain ⟨hb', _⟩ := drainPool_preserves (runPoolOps 1000 ops).queue.length
    (runPoolOps 1000 ops) hb hc
  refine ⟨hempty, ?_⟩
  unfold statsBalanced at hb'
  unfold drained at hempty ⊢
  rw [hempty] at hb'
  simpa using hb'

/-- Operation sequence used by the amended-C5 witness: three clean
submissions (one of which throws) with a `cancel_all` dropping the first
two; the drained statistics satisfy 3 = 1 + 2 + 0. -/
def c5WitnessOps : List PoolOp :=
  [PoolOp.submit ⟨TaskPriority.NORMAL, 0, false, false⟩,
   PoolOp.submit ⟨TaskPriority.LOW, 1, false, true⟩,
   PoolOp.cancelAll,
   PoolOp.submit ⟨TaskPriority.HIGH, 2, false, false⟩]

/-- Witness for the amended C5 at the concrete operation sequence
`c5WitnessOps`. -/
theorem threadpool_stats_conservation_amended_witness :
    (drained (runPoolOps 1000 c5WitnessOps)).queue = [] ∧
    (drained (runPoolOps 1000 c5WitnessOps)).stats.submitted =
      (drained (runPoolOps 1000 c5WitnessOps)).stats.completed +
      (drained (runPoolOps 1000 c5WitnessOps)).stats.cancelled +
      (drained (runPoolOps 1000 c5WitnessOps)).stats.failed :=
  threadpool_stats_conservation_amended c5WitnessOps (by
    intro op hop
    simp only [c5WitnessOps, List.mem_cons, List.not_mem_nil, or_false] at hop
    rcases hop with rfl | rfl | rfl | rfl <;> simp [opClean])

end Core
end ALS

namespace ALS
namespace Core

mutual
/-- Minimal model of an `nlohmann::json` value: objects, strings, integers
and null; `other` stands for arrays, booleans and floats, whose inner
structure no modelled function inspects.  Object fields are a dedicated
inductive (`JsonFields`) so that equality stays derivable. -/
inductive Json where
  | null
  | num (n : Int)
  | str (s : List Char)
  | obj (fields : JsonFields)
  | other
deriving DecidableEq, Repr
/-- Field list of a JSON object. -/
inductive JsonFields where
  | nil
  | cons (key : List Char) (value : Json) (rest : JsonFields)
deriving DecidableEq, Repr
end

/-- Build an object field list from key/value pairs. -/
def Json.mkObj : List (List Char × Json) → JsonFields
  | [] => JsonFields.nil
  | (k, v) :: r => JsonFields.cons k v (Json.mkObj r)

/-- Key lookup over object fields. -/
def JsonFields.containsKey : JsonFields → List Char → Bool
  | JsonFields.nil, _ => false
  | JsonFields.cons k _ r, key => k == key || r.containsKey key

/-- First value bound to a key (`Json.null` when absent). -/
def JsonFields.getKey : JsonFields → List Char → Json
  | JsonFields.nil, _ => Json.null
  | JsonFields.cons k v r, key => if k == key then v else r.getKey key

/-- `json.contains(key)`. -/
def Json.containsKey : Json → List Char → Bool
  | Json.obj fields, k => fields.containsKey k
  | _, _ => false

/-- `json[key]` on an object that contains the key (`Json.null` otherwise;
every modelled call site guards with `containsKey`). -/
def Json.getKey : Json → List Char → Json
  | Json.obj fields, k => fields.getKey k
  | _, _ => Json.null

/-- `json.is_object()`. -/
def Json.isObj : Json → Bool
  | Json.obj _ => true
  | _ => false

/-- `json.is_string()`. -/
def Json.isStr : Json → Bool
  | Json.str _ => true
  | _ => false

/-- JsonRpcProtocol.h `JsonRpcMessageType`. -/
inductive JsonRpcMessageType where
  | Request | Response | Notification | Error
deriving DecidableEq, Repr

/-- JsonRpcProtocol.h `JsonRpcMessage`: type tag plus the raw JSON (the
subclass fields `id`, `method`, `params` are recomputed from `raw` where the
source constructs them). -/
structure JsonRpcMessage where
  type : JsonRpcMessageType
  raw : Json
deriving DecidableEq, Repr

/-- JsonRpcProtocol.cpp `validateJsonRpcMessage`. -/
def validateJsonRpcMessage (j : Json) : Bool :=
  if !j.isObj then false
  else if !(j.containsKey (Features.chars "jsonrpc")) ||
      !(j.getKey (Features.chars "jsonrpc") == Json.str (Features.chars "2.0")) then false
  else
    let hasMethod := j.containsKey (Features.chars "method")
    let hasResult := j.containsKey (Features.chars "result")
    let hasError := j.containsKey (Features.chars "error")
    if !hasMethod && !hasResult && !hasError then false
    else if hasMethod && !(j.getKey (Features.chars "method")).isStr then false
    else if hasResult && hasError then false
    else true

/-- JsonRpcProtocol.cpp `determineMessageType`. -/
def determineMessageType (j : Json) : JsonRpcMessageType :=
  if j.containsKey (Features.chars "method") then
    (if j.containsKey (Features.chars "id") then JsonRpcMessageType.Request
     else JsonRpcMessageType.Notification)
  else if j.containsKey (Features.chars "error") then JsonRpcMessageType.Error
  else JsonRpcMessageType.Response

/-- One framed message written by `writeRawMessage`: `JsonRpcResponse.raw`
and `JsonRpcError.raw` carry exactly these fields (serialization to bytes
and the Content-Length header are injective and not modelled further). -/
inductive WireMsg where
  | response (id : Json) (result : Json)
  | errorResp (id : Json) (code : Int) (message : List Char) (data : Json)
deriving DecidableEq, Repr

/-- Protocol state: the sequence of framed messages written so far and the
`connected_` flag. -/
structure ProtoState where
  wire : List WireMsg
  connected : Bool
deriving DecidableEq, Repr

/-- JsonRpcProtocol.cpp `writeRawMessage`: under the write mutex, a
disconnected protocol writes nothing; otherwise one framed message goes
out. -/
def writeRawMessage (m : WireMsg) (st : ProtoState) : ProtoState :=
  if st.connected then { st with wire := st.wire ++ [m] } else st

/-- `writeMessage(JsonRpcResponse(id, result))`. -/
def writeResponse (id result : Json) (st : ProtoState) : ProtoState :=
  writeRawMessage (WireMsg.response id result) st

/-- JsonRpcProtocol.cpp `writeError`. -/
def writeError (id : Json) (code : Int) (message : List Char) (data : Json)
    (st : ProtoState) : ProtoState :=
  writeRawMessage (WireMsg.errorResp id code message data) st

/-- JsonRpcProtocol.cpp `writeParseError`: id null, code −32700, message
prefixed with "Parse error: ", null data. -/
def writeParseError (message : List Char) (st : ProtoState) : ProtoState :=
  writeError Json.null (-32700) (Features.chars "Parse error: " ++ message) Json.null st

/-- JsonRpcProtocol.cpp `parseMessage`.  `nlohmann::json::parse` is
third-party library code and is abstracted as the `parse` parameter
(`none` models the library throwing `json::exception`, whose `what()` text
is the opaque `ewhat`).  An invalid JSON-RPC shape returns `none` without
writing anything (only a log line). -/
def parseMessage (parse : List Char → Option Json) (ewhat : List Char)
    (payload : List Char) (st : ProtoState) :
    Option JsonRpcMessage × ProtoState :=
  match parse payload with
  | none => (none, writeParseError (Features.chars "Parse error: " ++ ewhat) st)
  | some j =>
    if !validateJsonRpcMessage j then (none, st)
    else (some { type := determineMessageType j, raw := j }, st)

/-- `std::isspace` characters skipped by `std::stoll`. -/
def isSpaceChar (c : Char) : Bool :=
  c == ' ' || c == '\t' || c == '\n' || c == '\x0b' || c == '\x0c' || c == '\r'

/-- Decimal digit test on characters. -/
def isDigitChar (c : Char) : Bool := 48 ≤ c.toNat && c.toNat ≤ 57

/-- Numeric value of a digit string. -/
def natOfDigits (l : List Char) : Nat :=
  l.foldl (fun acc c => acc * 10 + (c.toNat - 48)) 0

/-- `std::stoll` on the modelled inputs: optional leading whitespace, an
optional sign, then at least one digit (trailing text ignored); `none`
models the `invalid_argument` exception.  Out-of-range values cannot arise
at the modelled call sites. -/
def stollM (s : List Char) : Option Int :=
  let s1 := s.dropWhile isSpaceChar
  let p : Bool × List Char :=
    match s1 with
    | '-' :: r => (true, r)
    | '+' :: r => (false, r)
    | _ => (false, s1)
  let digits := p.2.takeWhile isDigitChar
  if digits.isEmpty then none
  else some (if p.1 then -(natOfDigits digits : Int) else (natOfDigits digits : Int))

/-- `std::getline` on a character stream: fails (failbit) at EOF with
nothing to read; otherwise extracts up to and consuming a newline; the
returned Bool is the eofbit, set when the line ended at end of input
instead of a newline. -/
def getlineM (s : List Char) : Option (List Char × List Char × Bool) :=
  match s with
  | [] => none
  | _ =>
    let line := s.takeWhile (fun c => !(c == '\n'))
    match s.dropWhile (fun c => !(c == '\n')) with
    | [] => some (line, [], true)
    | _ :: r => some (line, r, false)

/-- Outcome of the header loop of `readMessage`: either the loop finished
(blank line or EOF) with the last parsed Content-Length (−1 when none was
seen) and the stream's eofbit, or a Content-Length header failed to parse
(`std::stoll` / `substr(16)` threw). -/
inductive HeaderResult where
  | done (contentLength : Int) (rest : List Char) (eofbit : Bool)
  | badHeader (line : List Char) (rest : List Char)
deriving DecidableEq, Repr

/-- Header loop of JsonRpcProtocol.cpp `readMessage` (lines 124–145): read
lines until a blank one, trimming one trailing CR, and parse lines starting
with "Content-Length" via `stoll(line.substr(16))` (a too-short line makes
`substr` throw, a non-numeric remainder makes `stoll` throw; both are the
invalid-header case).  Fuel bounds the number of lines; each successful
`getlineM` consumes at least one character, so `input.length + 1`
suffices. -/
def readHeaders : Nat → List Char → Int → HeaderResult
  | 0, input, cl => HeaderResult.done cl input true
  | fuel + 1, input, cl =>
    match getlineM input with
    | none => HeaderResult.done cl input true
    | some (line0, rest, eofbit) =>
      let line := if !line0.isEmpty && line0.getLast? == some '\r'
        then line0.dropLast else line0
      if line.isEmpty then HeaderResult.done cl rest eofbit
      else if Features.leadsWith line (Features.chars "Content-Length") then
        (if line.length < 16 then HeaderResult.badHeader line rest
         else match stollM (line.drop 16) with
          | some v => readHeaders fuel rest v
          | none => HeaderResult.badHeader line rest)
      else readHeaders fuel rest cl

/-- Tail of JsonRpcProtocol.cpp `readMessage` after the header loop (lines
141–163): report an invalid header; fail the connection on EOF or a missing
Content-Length; otherwise read exactly `contentLength` bytes, failing the
connection on a short read, and parse the payload.  There is no upper bound
on `contentLength`.  A negative parsed length (≠ −1) makes
`std::string json_content(content_length, 0)` throw `length_error` which
propagates to the caller's catch — modelled as a failed read with the state
unchanged. -/
def readPayloadAndParse (parse : List Char → Option Json) (ewhat : List Char)
    (st : ProtoState) :
    HeaderResult → Option JsonRpcMessage × ProtoState × List Char
  | HeaderResult.badHeader line rest =>
    (none,
      writeError Json.null (-32700) (Features.chars "Invalid Content-Length header")
        (Json.obj (Json.mkObj [(Features.chars "header", Json.str line)])) st,
      rest)
  | HeaderResult.done cl rest eofbit =>
    if eofbit || cl == -1 then
      (none, { st with connected := false }, rest)
    else if cl < 0 then
      (none, st, rest)
    else
      let payload := rest.take cl.toNat
      if (payload.length : Int) != cl then
        (none,
          { writeError Json.null (-32700)
              (Features.chars "Failed to read full message content")
              (Json.obj (Json.mkObj
                [(Features.chars "expected", Json.num cl),
                 (Features.chars "read", Json.num payload.length)])) st
            with connected := false },
          rest.drop cl.toNat)
      else
        let pr := parseMessage parse ewhat payload st
        (pr.1, pr.2, rest.drop cl.toNat)

/-- JsonRpcProtocol.cpp `readMessage` over a character stream. -/
def readMessage (parse : List Char → Option Json) (ewhat : List Char)
    (st : ProtoState) (input : List Char) :
    Option JsonRpcMessage × ProtoState × List Char :=
  if !st.connected then (none, { st with connected := false }, input)
  else readPayloadAndParse parse ewhat st (readHeaders (input.length + 1) input (-1))

end Core
end ALS

namespace ALS
namespace Core

/-- Method string of a message (`json["method"].get<std::string>()` in the
`JsonRpcRequest`/`JsonRpcNotification` constructors). -/
def msgMethod (m : JsonRpcMessage) : List Char :=
  match m.raw.getKey (Features.chars "method") with
  | Json.str s => s
  | _ => []

/-- Server state observed by the read loop: the protocol, the list of
messages that reached `dispatcher_->dispatch`, and the `running_` flag.  The
dispatcher's internal behaviour is modelled separately below. -/
structure ServerState where
  proto : ProtoState
  dispatched : List JsonRpcMessage
  running : Bool
deriving DecidableEq, Repr

/-- LspServer.cpp `handleMessage` (lines 322–342): dispatch the message and
report whether the main loop should continue (false on a shutdown/exit
request or an exit notification). -/
def handleMessage (m : JsonRpcMessage) (s : ServerState) : ServerState × Bool :=
  let s1 := { s with dispatched := s.dispatched ++ [m] }
  let cont :=
    if m.type = JsonRpcMessageType.Request then
      !(msgMethod m == Features.chars "shutdown" || msgMethod m == Features.chars "exit")
    else if m.type = JsonRpcMessageType.Notification then
      !(msgMethod m == Features.chars "exit")
    else true
  (s1, cont)

/-- LspServer.cpp `Impl::runStdio` (lines 237–262): while running and
connected, read one message; a `none` result exits the loop ("No message
received or EOF, exiting main loop"); otherwise handle it and continue
unless shutdown/exit was seen.  Fuel bounds loop iterations.  Returns the
final server state and the unconsumed input. -/
def runStdio (parse : List Char → Option Json) (ewhat : List Char) :
    Nat → ServerState → List Char → ServerState × List Char
  | 0, s, input => (s, input)
  | fuel + 1, s, input =>
    if s.running && s.proto.connected then
      let r := readMessage parse ewhat s.proto input
      match r.1 with
      | none => ({ s with proto := r.2.1 }, r.2.2)
      | some m =>
        let hr := handleMessage m { s with proto := r.2.1 }
        if hr.2 then runStdio parse ewhat fuel hr.1 r.2.2
        else (hr.1, r.2.2)
    else (s, input)

/-- Projection of RequestDispatcher.h `DispatcherStats` to the four request
counters (processing times and per-method counts are not read by any
claim). -/
structure DispatcherStats where
  totalRequests : Nat
  successfulRequests : Nat
  failedRequests : Nat
  cancelledRequests : Nat
deriving DecidableEq, Repr

/-- Dispatcher state: the protocol it replies through, the cancellation
token cells created so far (`createCancellationToken` order, value = the
atomic flag), the `active_requests_` map from request id to token cell, and
the statistics. -/
structure DispatcherState where
  proto : ProtoState
  tokens : List Bool
  activeRequests : List (Json × Nat)
  stats : DispatcherStats
deriving DecidableEq, Repr

/-- `active_requests_.find(id)` → the token cell index. -/
def lookupToken (s : DispatcherState) (id : Json) : Option Nat :=
  match s.activeRequests.find? (fun p => p.1 == id) with
  | some p => some p.2
  | none => none

/-- Value of a token cell (a dangling index reads false, matching a never-set
token). -/
def tokenValue (s : DispatcherState) (i : Nat) : Bool := s.tokens.getD i false

/-- `token->store(true)` on one cell. -/
def setToken (s : DispatcherState) (i : Nat) : DispatcherState :=
  { s with tokens := s.tokens.set i true }

/-- Projection of RequestDispatcher.h `RequestContext`: the data captured
when `dispatchRequest` builds the context.  `start_time` is wall-clock and
omitted; the `respond`/`error` callbacks are the two lambdas modelled by
`contextRespond`/`contextError`. -/
structure RequestContextM where
  requestId : Json
  method : List Char
  params : Json
  tokenIndex : Nat
deriving DecidableEq, Repr

/-- Reply lambda bound into the context at RequestDispatcher.cpp lines
75–78: build `JsonRpcResponse(id, result)` and call
`protocol_.writeMessage` — unconditionally; there is no single-shot
guard. -/
def contextRespond (id result : Json) (st : ProtoState) : ProtoState :=
  writeResponse id result st

/-- Error lambda bound at RequestDispatcher.cpp lines 79–81: call
`protocol_.writeError(id, code, message, data)` — unconditionally. -/
def contextError (id : Json) (code : Int) (message : List Char) (data : Json)
    (st : ProtoState) : ProtoState :=
  writeError id code message data st

/-- RequestDispatcher.cpp `sendMethodNotFoundError`. -/
def sendMethodNotFoundError (id : Json) (method : List Char)
    (s : DispatcherState) : DispatcherState :=
  { s with
    proto := writeError id (-32601) (Features.chars "Method not found")
      (Json.obj (Json.mkObj [(Features.chars "method", Json.str method)])) s.proto,
    stats := { s.stats with failedRequests := s.stats.failedRequests + 1 } }

/-- RequestDispatcher.cpp `dispatchRequest` for a method that has a
registered handler: create a cancellation token, insert `(id → token)` into
`active_requests_` (insert-or-assign), build the `RequestContext`, and
submit the task.  The submitted task is the returned context, run later by
`executeRequestHandler`. -/
def dispatchTrackedRequest (id : Json) (method : List Char) (params : Json)
    (s : DispatcherState) : DispatcherState × RequestContextM :=
  let tokenIndex := s.tokens.length
  ({ s with
      tokens := s.tokens ++ [false],
      activeRequests :=
        (s.activeRequests.filter (fun p => !(p.1 == id))) ++ [(id, tokenIndex)] },
    { requestId := id, method := method, params := params, tokenIndex := tokenIndex })

/-- Observable behaviour of a registered request handler body: the wire
messages it emits through the context callbacks before returning, or a
thrown exception with its `what()` text. -/
inductive HandlerSpec where
  | runs (writes : List WireMsg)
  | throws (details : List Char)
deriving DecidableEq, Repr

/-- RequestDispatcher.cpp `executeRequestHandler` (lines 108–156), with the
middleware pre-process conjunction abstracted as `mwBlocks` (the two
standard middlewares always return true; a custom middleware may block).
The cancellation path counts `cancelled_requests` and returns; the blocked
path returns; both skip the final `active_requests_.erase`.  The
fall-through path runs the handler (or replies −32603 "Internal error" when
it throws), updates the statistics, and erases the id. -/
def executeRequestHandler (ctx : RequestContextM) (h : HandlerSpec)
    (mwBlocks : Bool) (s : DispatcherState) : DispatcherState :=
  if tokenValue s ctx.tokenIndex then
    { s with stats :=
        { s.stats with cancelledRequests := s.stats.cancelledRequests + 1 } }
  else if mwBlocks then s
  else
    let s1 :=
      match h with
      | HandlerSpec.runs writes =>
        { s with
          proto := { s.proto with wire :=
            if s.proto.connected then s.proto.wire ++ writes else s.proto.wire },
          stats := { s.stats with
            totalRequests := s.stats.totalRequests + 1,
            successfulRequests := s.stats.successfulRequests + 1 } }
      | HandlerSpec.throws details =>
        { s with
          proto := contextError ctx.requestId (-32603)
            (Features.chars "Internal error")
            (Json.obj (Json.mkObj [(Features.chars "details", Json.str details)]))
            s.proto,
          stats := { s.stats with
            totalRequests := s.stats.totalRequests + 1,
            failedRequests := s.stats.failedRequests + 1 } }
    { s1 with activeRequests :=
        s1.activeRequests.filter (fun p => !(p.1 == ctx.requestId)) }

/-- RequestDispatcher.cpp `cancelRequest`: set the token of the id's entry
in `active_requests_`, if present. -/
def cancelRequest (id : Json) (s : DispatcherState) : DispatcherState :=
  match lookupToken s id with
  | some i => setToken s i
  | none => s

/-- Request methods registered by LspServer.cpp `registerLspHandlers`
(lines 456–493), in registration order. -/
def lspRequestMethods : List (List Char) :=
  [Features.chars "initialize", Features.chars "shutdown",
   Features.chars "textDocument/completion"]

/-- Notification methods registered by LspServer.cpp `registerLspHandlers`
(lines 456–493), in registration order. -/
def lspNotificationMethods : List (List Char) :=
  [Features.chars "textDocument/didOpen", Features.chars "textDocument/didChange",
   Features.chars "textDocument/didClose", Features.chars "exit"]

/-- RequestDispatcher.cpp `dispatchNotification` against the server's
registry: an unregistered method is logged and dropped; a registered one
runs its handler (didOpen/didChange/didClose are TODO bodies; `exit`
clears `running_`).  None of the registered handlers touches the
cancellation tokens.  Returns the dispatcher state and the running flag. -/
def dispatchServerNotification (method : List Char) (running : Bool)
    (s : DispatcherState) : DispatcherState × Bool :=
  if lspNotificationMethods.contains method then
    (s, if method == Features.chars "exit" then false else running)
  else (s, running)

end Core
end ALS

namespace ALS
namespace Core

/-- Freshly connected protocol state. -/
def protoInit : ProtoState := { wire := [], connected := true }

/-- Freshly constructed dispatcher state. -/
def dispInit : DispatcherState :=
  { proto := protoInit, tokens := [], activeRequests := [],
    stats := { totalRequests := 0, successfulRequests := 0,
               failedRequests := 0, cancelledRequests := 0 } }

/-- Counterexample to claim C1 as stated: the context's `respond` callback
has no single-shot guard, so invoking it twice for the same request id
writes two `Response` frames — the second call is not dropped (it changes
the state), contradicting "further respond or error calls write
nothing". -/
theorem reply_single_shot_counterexample :
    (contextRespond (Json.num 1) Json.null
        (contextRespond (Json.num 1) Json.null protoInit)).wire =
      [WireMsg.response (Json.num 1) Json.null,
       WireMsg.response (Json.num 1) Json.null] ∧
    contextRespond (Json.num 1) Json.null
        (contextRespond (Json.num 1) Json.null protoInit) ≠
      contextRespond (Json.num 1) Json.null protoInit := by
  refine ⟨by decide, by decide⟩

/-- Claim C1 amended.  The context's `respond` and `error` callbacks are not
single-shot: each invocation while the transport is connected appends
exactly one framed message, so k invocations produce k wire replies; the
at-most-one-reply property holds only when the handler itself invokes the
callbacks at most once (as every registered handler does). -/
theorem reply_callbacks_append_one_message (id result : Json) (code : Int)
    (message : List Char) (data : Json) (st : ProtoState)
    (h : st.connected = true) :
    (contextRespond id result st).wire =
      st.wire ++ [WireMsg.response id result] ∧
    (contextError id code message data st).wire =
      st.wire ++ [WireMsg.errorResp id code message data] := by
  unfold contextRespond contextError writeResponse writeError writeRawMessage
  rw [h]
  simp

/-- Witness for the amended C1 on a concrete connected state. -/
theorem reply_callbacks_append_one_message_witness :
    (contextRespond (Json.num 2) Json.null protoInit).wire =
      protoInit.wire ++ [WireMsg.response (Json.num 2) Json.null] ∧
    (contextError (Json.num 2) (-32603) (Features.chars "Internal error")
        Json.null protoInit).wire =
      protoInit.wire ++ [WireMsg.errorResp (Json.num 2) (-32603)
        (Features.chars "Internal error") Json.null] :=
  reply_callbacks_append_one_message (Json.num 2) Json.null (-32603)
    (Features.chars "Internal error") Json.null protoInit (by decide)

/-- A frame whose ten-byte payload "not json!!" is not valid JSON. -/
def c2BadFrame : List Char := Features.chars "Content-Length: 10\r\n\r\nnot json!!"

/-- A complete well-formed second frame following the bad one. -/
def c2SecondFrame : List Char := Features.chars "Content-Length: 2\r\n\r\n[]"

/-- Behaviour of `nlohmann::json::parse` on the payloads of this scenario:
the only payload ever parsed, "not json!!", is rejected. -/
def c2Parse : List Char → Option Json := fun _ => none

/-- Opaque `what()` text of the parse exception. -/
def c2Ewhat : List Char := Features.chars "invalid literal"

/-- Server state as `runStdio` starts. -/
def serverInit : ServerState := { proto := protoInit, dispatched := [], running := true }

/-- Counterexample to claim C2 as stated: on the invalid payload the server
does write the parse-error reply (id null, −32700), but `readMessage`
returns none and `runStdio` exits its loop — the complete second frame is
left unread (`.2 = c2SecondFrame`) and nothing is ever dispatched, so the
connection does not keep processing subsequent messages. -/
theorem parse_error_claim_counterexample :
    (runStdio c2Parse c2Ewhat 4 serverInit (c2BadFrame ++ c2SecondFrame)).1.proto.wire =
      [WireMsg.errorResp Json.null (-32700)
        (Features.chars "Parse error: Parse error: invalid literal") Json.null] ∧
    (runStdio c2Parse c2Ewhat 4 serverInit (c2BadFrame ++ c2SecondFrame)).1.dispatched = [] ∧
    (runStdio c2Parse c2Ewhat 4 serverInit (c2BadFrame ++ c2SecondFrame)).2 =
      c2SecondFrame ∧
    (runStdio c2Parse c2Ewhat 4 serverInit (c2BadFrame ++ c2SecondFrame)).1.proto.connected =
      true := by
  refine ⟨by decide, by decide, by decide, by decide⟩

/-- Claim C2 amended.  A framed payload that fails JSON parsing makes the
server write the parse-error response (id null, code −32700) to the peer,
but `readMessage` then yields none and the read loop exits immediately:
subsequent messages are not read or processed. -/
theorem parse_error_reply_then_loop_exit :
    (∀ (parse : List Char → Option Json) (ewhat payload : List Char) (st : ProtoState),
      parse payload = none →
      parseMessage parse ewhat payload st =
        (none, writeParseError (Features.chars "Parse error: " ++ ewhat) st)) ∧
    (∀ (parse : List Char → Option Json) (ewhat : List Char) (fuel : Nat)
        (s : ServerState) (input : List Char),
      s.running = true → s.proto.connected = true →
      (readMessage parse ewhat s.proto input).1 = none →
      runStdio parse ewhat (fuel + 1) s input =
        ({ s with proto := (readMessage parse ewhat s.proto input).2.1 },
          (readMessage parse ewhat s.proto input).2.2)) := by
  constructor
  · intro parse ewhat payload st hp
    unfold parseMessage
    rw [hp]
  · intro parse ewhat fuel s input hrun hconn hnone
    unfold runStdio
    rcases hr : readMessage parse ewhat s.proto input with ⟨o, p, rest⟩
    rw [hr] at hnone
    simp at hnone
    subst hnone
    rw [hrun, hconn]
    simp

/-- Witness for the amended C2 on the concrete bad frame. -/
theorem parse_error_reply_then_loop_exit_witness :
    parseMessage c2Parse c2Ewhat (Features.chars "not json!!") protoInit =
      (none, writeParseError (Features.chars "Parse error: " ++ c2Ewhat) protoInit) ∧
    runStdio c2Parse c2Ewhat 1 serverInit (c2BadFrame ++ c2SecondFrame) =
      ({ serverInit with proto :=
          (readMessage c2Parse c2Ewhat serverInit.proto (c2BadFrame ++ c2SecondFrame)).2.1 },
        (readMessage c2Parse c2Ewhat serverInit.proto (c2BadFrame ++ c2SecondFrame)).2.2) :=
  ⟨parse_error_reply_then_loop_exit.1 c2Parse c2Ewhat
      (Features.chars "not json!!") protoInit rfl,
   parse_error_reply_then_loop_exit.2 c2Parse c2Ewhat 0 serverInit
      (c2BadFrame ++ c2SecondFrame) rfl rfl (by decide)⟩

/-- A frame declaring `Content-Length: 0`. -/
def c3ZeroFrame : List Char := Features.chars "Content-Length: 0\r\n\r\n"

/-- Counterexample to claim C3 as stated: for `N = 0` the read does not fail
the connection and the (empty) payload IS parsed — `nlohmann::json::parse`
rejects the empty input, so a parse-error reply appears on the wire and
`connected` stays true; the claim requires a failed connection with no
payload ever parsed. -/
theorem content_length_claim_counterexample :
    (readMessage c2Parse c2Ewhat protoInit c3ZeroFrame).1 = none ∧
    (readMessage c2Parse c2Ewhat protoInit c3ZeroFrame).2.1.connected = true ∧
    (readMessage c2Parse c2Ewhat protoInit c3ZeroFrame).2.1.wire =
      [WireMsg.errorResp Json.null (-32700)
        (Features.chars "Parse error: Parse error: invalid literal") Json.null] := by
  refine ⟨by decide, by decide, by decide⟩

/-- Claim C3 amended.  After the header loop: a missing Content-Length (the
−1 sentinel, also the EOF case) fails the read and the connection, as
claimed; but `N = 0` is accepted — the empty payload is read and parsed
(producing a parse-error reply, connection left open); and there is no
100 MiB (or any) upper bound: every `N ≥ 0` whose payload is available is
read in full and parsed. -/
theorem content_length_checks_amended :
    (∀ (parse : List Char → Option Json) (ewhat : List Char) (st : ProtoState)
        (rest : List Char) (eofbit : Bool),
      readPayloadAndParse parse ewhat st (HeaderResult.done (-1) rest eofbit) =
        (none, { st with connected := false }, rest)) ∧
    (∀ (parse : List Char → Option Json) (ewhat : List Char) (st : ProtoState)
        (rest : List Char),
      readPayloadAndParse parse ewhat st (HeaderResult.done 0 rest false) =
        ((parseMessage parse ewhat [] st).1, (parseMessage parse ewhat [] st).2, rest)) ∧
    (∀ (parse : List Char → Option Json) (ewhat : List Char) (st : ProtoState)
        (rest : List Char) (cl : Int), 0 ≤ cl → cl ≤ (rest.length : Int) →
      readPayloadAndParse parse ewhat st (HeaderResult.done cl rest false) =
        ((parseMessage parse ewhat (rest.take cl.toNat) st).1,
         (parseMessage parse ewhat (rest.take cl.toNat) st).2,
         rest.drop cl.toNat)) := by
  refine ⟨?_, ?_, ?_⟩
  · intro parse ewhat st rest eofbit
    unfold readPayloadAndParse
    simp
  · intro parse ewhat st rest
    unfold readPayloadAndParse
    simp
  · intro parse ewhat st rest cl h0 hle
    show (if ((false : Bool) || cl == -1) = true then
        (none, { st with connected := false }, rest)
      else if cl < 0 then (none, st, rest)
      else if (((List.take cl.toNat rest).length : Int) != cl) = true then
        (none,
          { writeError Json.null (-32700)
              (Features.chars "Failed to read full message content")
              (Json.obj (Json.mkObj
                [(Features.chars "expected", Json.num cl),
                 (Features.chars "read", Json.num (List.take cl.toNat rest).length)])) st
            with connected := false },
          List.drop cl.toNat rest)
      else
        ((parseMessage parse ewhat (List.take cl.toNat rest) st).1,
         (parseMessage parse ewhat (List.take cl.toNat rest) st).2,
         List.drop cl.toNat rest)) =
      ((parseMessage parse ewhat (List.take cl.toNat rest) st).1,
       (parseMessage parse ewhat (List.take cl.toNat rest) st).2,
       List.drop cl.toNat rest)
    split_ifs with ha hb hc
    · exfalso
      simp at ha
      omega
    · exfalso
      omega
    · exfalso
      simp [List.length_take] at hc
      omega
    · rfl

/-- Witness for the amended C3: the missing-header case fails the
connection, and a frame with `N = 3` and available payload is parsed in
full. -/
theorem content_length_checks_amended_witness :
    readPayloadAndParse c2Parse c2Ewhat protoInit
        (HeaderResult.done (-1) (Features.chars "xyz") false) =
      (none, { protoInit with connected := false }, Features.chars "xyz") ∧
    readPayloadAndParse c2Parse c2Ewhat protoInit
        (HeaderResult.done 3 (Features.chars "[1]") false) =
      ((parseMessage c2Parse c2Ewhat ((Features.chars "[1]").take (3 : Int).toNat) protoInit).1,
       (parseMessage c2Parse c2Ewhat ((Features.chars "[1]").take (3 : Int).toNat) protoInit).2,
       (Features.chars "[1]").drop (3 : Int).toNat) :=
  ⟨content_length_checks_amended.1 c2Parse c2Ewhat protoInit (Features.chars "xyz") false,
   content_length_checks_amended.2.2 c2Parse c2Ewhat protoInit
     (Features.chars "[1]") 3 (by decide) (by decide)⟩

/-- Accepted request (id 7) whose handler is registered; the dispatcher has
inserted its cancellation token into `active_requests_`. -/
def c4Dispatch : DispatcherState × RequestContextM :=
  dispatchTrackedRequest (Json.num 7)
    (Features.chars "textDocument/completion") Json.null dispInit

/-- State after the request is cancelled and its task then runs: the task
observes the set token and returns early. -/
def c4Final : DispatcherState :=
  executeRequestHandler c4Dispatch.2 (HandlerSpec.runs []) false
    (cancelRequest (Json.num 7) c4Dispatch.1)

/-- Counterexample to claim C4 as stated: after the cancelled task has run
to completion (counting `cancelled_requests` and producing no reply, so no
further reply will ever come), its entry is still in `active_requests_` —
the early return skips the erase. -/
theorem active_requests_stale_counterexample :
    c4Final.activeRequests = [(Json.num 7, 0)] ∧
    c4Final.stats.cancelledRequests = 1 ∧
    c4Final.proto.wire = [] := by
  refine ⟨by decide, by decide, by decide⟩

/-- Claim C4 amended.  `executeRequestHandler` removes the request's entry
from `active_requests_` on the fall-through paths (normal reply and
handler-throw reply), but the two early returns — cancellation observed and
middleware block — leave the entry in place; it is only cleared later by
`cancelAllRequests`. -/
theorem active_requests_cleanup_amended :
    (∀ (ctx : RequestContextM) (h : HandlerSpec) (s : DispatcherState),
      tokenValue s ctx.tokenIndex = false →
      (executeRequestHandler ctx h false s).activeRequests =
        s.activeRequests.filter (fun p => !(p.1 == ctx.requestId))) ∧
    (∀ (ctx : RequestContextM) (h : HandlerSpec) (mw : Bool) (s : DispatcherState),
      tokenValue s ctx.tokenIndex = true →
      (executeRequestHandler ctx h mw s).activeRequests = s.activeRequests) ∧
    (∀ (ctx : RequestContextM) (h : HandlerSpec) (s : DispatcherState),
      tokenValue s ctx.tokenIndex = false →
      (executeRequestHandler ctx h true s).activeRequests = s.activeRequests) := by
  refine ⟨?_, ?_, ?_⟩
  · intro ctx h s htok
    unfold executeRequestHandler
    rw [htok]
    cases h <;> simp
  · intro ctx h mw s htok
    unfold executeRequestHandler
    rw [htok]
    simp
  · intro ctx h s htok
    unfold executeRequestHandler
    rw [htok]
    simp

/-- Witness for the amended C4: the fall-through path erases the tracked
entry of request id 7. -/
theorem active_requests_cleanup_amended_witness :
    (executeRequestHandler c4Dispatch.2 (HandlerSpec.runs []) false
        c4Dispatch.1).activeRequests =
      c4Dispatch.1.activeRequests.filter
        (fun p => !(p.1 == c4Dispatch.2.requestId)) :=
  active_requests_cleanup_amended.1 c4Dispatch.2 (HandlerSpec.runs [])
    c4Dispatch.1 (by decide)

/-- Dispatcher state with one in-flight request (id 9) whose token is
unset. -/
def c7State : DispatcherState :=
  (dispatchTrackedRequest (Json.num 9)
    (Features.chars "textDocument/completion") Json.null dispInit).1

/-- Counterexample to claim C7 as stated: `registerLspHandlers` registers no
handler for `$/cancelRequest` (neither as a notification nor as a request),
so dispatching that notification leaves the dispatcher state — in
particular the cancellation token of in-flight request 9 — unchanged,
whereas `cancelRequest(9)` (which the claim says the notification is
equivalent to) would set the token. -/
theorem cancel_notification_claim_counterexample :
    lspNotificationMethods.contains (Features.chars "$/cancelRequest") = false ∧
    (dispatchServerNotification (Features.chars "$/cancelRequest") true c7State).1 =
      c7State ∧
    c7State.tokens = [false] ∧
    (cancelRequest (Json.num 9) c7State).tokens = [true] := by
  refine ⟨by decide, by decide, by decide, by decide⟩

/-- Claim C7 amended.  The server registers no `$/cancelRequest` handler, so
the notification is dropped as unhandled ("No handler registered" warning)
and no cancellation token is touched; `RequestDispatcher::cancelRequest`
itself does set the token of a tracked request when called directly, but
nothing invokes it for the LSP cancellation notification. -/
theorem cancel_notification_unregistered_amended :
    lspNotificationMethods.contains (Features.chars "$/cancelRequest") = false ∧
    lspRequestMethods.contains (Features.chars "$/cancelRequest") = false ∧
    (∀ (running : Bool) (s : DispatcherState),
      dispatchServerNotification (Features.chars "$/cancelRequest") running s =
        (s, running)) ∧
    (∀ (id : Json) (s : DispatcherState) (i : Nat),
      lookupToken s id = some i → cancelRequest id s = setToken s i) := by
  refine ⟨by decide, by decide, ?_, ?_⟩
  · intro running s
    unfold dispatchServerNotification
    rw [show lspNotificationMethods.contains (Features.chars "$/cancelRequest") = false
      from by decide]
    simp
  · intro id s i hl
    unfold cancelRequest
    rw [hl]

/-- Witness for the amended C7: a direct `cancelRequest` on the tracked
request 9 sets its token cell. -/
theorem cancel_notification_unregistered_amended_witness :
    cancelRequest (Json.num 9) c7State = setToken c7State 0 :=
  cancel_notification_unregistered_amended.2.2.2 (Json.num 9) c7State 0 (by decide)

end Core
end ALS
